import Mathlib

/-!
Verification development for `scipy/stats/_continued_fraction.py` (the modified
Lentz algorithm for numerically evaluating generalized continued fractions).

Modelling conventions
=====================

* Machine floating-point numbers are embedded as exact rationals extended with
  the IEEE-754 special values `+inf`, `-inf` and `nan` (type `FV` below), with
  the IEEE rules for the special values (`inf - inf = nan`, `0 * inf = nan`,
  `nan` compares false to everything, including itself).  Rounding is not
  modelled: the claims under study are about the dataflow and the control flow
  of the algorithm, none of them is about rounding error.
* Complex values (used by the log-domain mode to carry sign information through
  the logarithm) are pairs of `FV` (type `CV`), with NumPy's componentwise
  equality, addition, and `isfinite`.
* `scipy.special.logsumexp` (reached through the local helper `_logaddexp`) is
  not part of the source under study; following the spec it is the numerically
  stable two-term log-sum-of-exponentials primitive.  Because its output
  (`log (exp x + exp y)`) is transcendental it is kept as an explicit function
  parameter `L : CV → CV → CV` of the log-domain definitions, so every theorem
  about the log mode holds for an arbitrary realization of the primitive; where
  a property genuinely needs a fact about it (for example
  `Re (logaddexp (+inf) (i*pi)) = +inf`), that fact appears as an explicit
  hypothesis.  The constant array `pi*1j` is likewise a parameter `piC : CV`
  (its value, `i*pi`, has no exact rational representation).
* The elementwise batches that NumPy stores as 1-d arrays of size `k` are
  embedded as functions `Fin k → FV`; all the vectorized arithmetic in the
  source is elementwise, and the boolean-mask assignment `arr[mask] = v`
  becomes a pointwise conditional.
* The generic iteration driver `scipy._lib._elementwise_iterative_method._loop`
  is not under the source tree; where a claim depends on it, it is modelled
  from the spec (section 4.5): the driver performs a termination check on the
  freshly initialized state, then loops `advance term index / evaluate the
  coefficient pair / Lentz step / termination check` while elements remain in
  progress and the iteration cap is not reached, freezing terminal elements
  (their state is never touched again), and finally marks the elements still
  in progress with the max-iterations status.
-/

/-- Scalar numeric domain of the embedding: exact rationals extended with the
IEEE-754 special values `+inf`, `-inf` and `nan`. -/
inductive FV where
  | fin : ℚ → FV
  | inf : FV
  | ninf : FV
  | nan : FV
  deriving DecidableEq, Repr

/-- IEEE negation. -/
def FV.neg : FV → FV
  | .fin q => .fin (-q)
  | .inf => .ninf
  | .ninf => .inf
  | .nan => .nan

/-- IEEE addition (`inf + (-inf) = nan`, `nan` absorbs). -/
def FV.add : FV → FV → FV
  | .nan, _ => .nan
  | _, .nan => .nan
  | .fin q, .fin r => .fin (q + r)
  | .fin _, .inf => .inf
  | .fin _, .ninf => .ninf
  | .inf, .fin _ => .inf
  | .inf, .inf => .inf
  | .inf, .ninf => .nan
  | .ninf, .fin _ => .ninf
  | .ninf, .inf => .nan
  | .ninf, .ninf => .ninf

/-- IEEE subtraction. -/
def FV.sub (x y : FV) : FV := x.add y.neg

/-- IEEE multiplication (`0 * inf = nan`, `nan` absorbs). -/
def FV.mul : FV → FV → FV
  | .nan, _ => .nan
  | _, .nan => .nan
  | .fin q, .fin r => .fin (q * r)
  | .fin q, .inf => if 0 < q then .inf else if q < 0 then .ninf else .nan
  | .fin q, .ninf => if 0 < q then .ninf else if q < 0 then .inf else .nan
  | .inf, .fin r => if 0 < r then .inf else if r < 0 then .ninf else .nan
  | .ninf, .fin r => if 0 < r then .ninf else if r < 0 then .inf else .nan
  | .inf, .inf => .inf
  | .inf, .ninf => .ninf
  | .ninf, .inf => .ninf
  | .ninf, .ninf => .inf

/-- IEEE division (with NumPy's `x / 0 = sign(x) * inf`, `0 / 0 = nan`,
`inf / inf = nan`, `x / inf = 0`; the single rational `0` plays the role of
IEEE `+0`). -/
def FV.div : FV → FV → FV
  | .nan, _ => .nan
  | _, .nan => .nan
  | .fin q, .fin r =>
      if r = 0 then (if 0 < q then .inf else if q < 0 then .ninf else .nan)
      else .fin (q / r)
  | .fin _, .inf => .fin 0
  | .fin _, .ninf => .fin 0
  | .inf, .fin r => if r < 0 then .ninf else .inf
  | .ninf, .fin r => if r < 0 then .inf else .ninf
  | .inf, .inf => .nan
  | .inf, .ninf => .nan
  | .ninf, .inf => .nan
  | .ninf, .ninf => .nan

/-- IEEE absolute value. -/
def FV.abs : FV → FV
  | .fin q => .fin |q|
  | .inf => .inf
  | .ninf => .inf
  | .nan => .nan

/-- NumPy `==` on floats: `nan` is not equal to anything. -/
def FV.beq : FV → FV → Bool
  | .fin q, .fin r => decide (q = r)
  | .inf, .inf => true
  | .ninf, .ninf => true
  | _, _ => false

/-- NumPy `<` on floats: comparisons involving `nan` are false. -/
def FV.blt : FV → FV → Bool
  | .nan, _ => false
  | _, .nan => false
  | .fin q, .fin r => decide (q < r)
  | .fin _, .inf => true
  | .fin _, .ninf => false
  | .inf, _ => false
  | .ninf, .ninf => false
  | .ninf, _ => true

/-- NumPy `isfinite`. -/
def FV.isFinite : FV → Bool
  | .fin _ => true
  | _ => false

/-- Complex values: pairs of extended floats; the log-domain mode uses them to
carry sign information as a phase. -/
structure CV where
  re : FV
  im : FV
  deriving DecidableEq, Repr

/-- Componentwise complex addition (IEEE on each component, as NumPy). -/
def CV.add (z w : CV) : CV := ⟨z.re.add w.re, z.im.add w.im⟩

/-- NumPy `isfinite` on complex values: both components finite. -/
def CV.isFinite (z : CV) : Bool := z.re.isFinite && z.im.isFinite

/-- NumPy `==` on complex values: both components equal (hence false whenever a
`nan` is involved). -/
def CV.beq (z w : CV) : Bool := z.re.beq w.re && z.im.beq w.im

/-- The complex value a real scalar broadcasts to (zero imaginary part). -/
def CV.ofReal (x : FV) : CV := ⟨x, FV.fin 0⟩

/-- The log-domain representation of zero: `-inf` (as a complex value). -/
def CV.negInf : CV := ⟨FV.ninf, FV.fin 0⟩

/-- The complex value `+inf` (zero imaginary part). -/
def CV.posInf : CV := ⟨FV.inf, FV.fin 0⟩

/-- Status code `_ECONVERGED` of the elementwise-iterative-method framework. -/
def ECONVERGED : Int := 0

/-- Status code `_ECONVERR` (maximum number of iterations reached). -/
def ECONVERR : Int := -2

/-- Status code `_EVALUEERR` (non-finite value encountered). -/
def EVALUEERR : Int := -3

/-- Status code `_EINPROGRESS`. -/
def EINPROGRESS : Int := 1

/-- Per-element recurrence state of the linear (non-log) mode, mirroring the
fields the source keeps in `work` (`_continued_fraction`, lines 331-333),
together with the per-element iteration and evaluation counters the driver
maintains. -/
structure LinWork where
  fn : FV
  Cnm1 : FV
  Dnm1 : FV
  CnDn : FV
  status : Int
  nit : Nat
  nfev : Nat
  deriving DecidableEq, Repr

/-- Per-element recurrence state of the log-domain mode (complex-valued). -/
structure LogWork where
  fn : CV
  Cnm1 : CV
  Dnm1 : CV
  CnDn : CV
  status : Int
  nit : Nat
  nfev : Nat
  deriving DecidableEq, Repr

/-- One Lentz update in linear mode: the `log=False` branch of
`post_func_eval` (`_continued_fraction.py`, lines 341-365), per element.
The source computes, in order: the denominator `bn + an * Dnm1`, the mask
assignment `denominator[denominator == 0] = tiny`, `Dn = 1/denominator`,
`Cn = bn + an / Cnm1`, the mask assignment `Cn[Cn == 0] = tiny`,
`work.CnDn = Cn * Dn`, `work.fn = work.fn * work.CnDn`, and finally the
overwrite `work.Cnm1, work.Dnm1 = Cn, Dn`. -/
def postFuncEvalLin (tiny an bn : FV) (w : LinWork) : LinWork :=
  let denominator := bn.add (an.mul w.Dnm1)
  let denominator := if denominator.beq (FV.fin 0) then tiny else denominator
  let Dn := (FV.fin 1).div denominator
  let Cn := bn.add (an.div w.Cnm1)
  let Cn := if Cn.beq (FV.fin 0) then tiny else Cn
  let CnDn := Cn.mul Dn
  { w with fn := w.fn.mul CnDn, Cnm1 := Cn, Dnm1 := Dn, CnDn := CnDn }

/-- The convergence residual test of the linear mode
(`check_termination`, lines 371-375, `log=False` branch):
`|CnDn - 1| < eps`. -/
def convTestLin (eps : FV) (w : LinWork) : Bool :=
  (FV.abs (w.CnDn.sub (FV.fin 1))).blt eps

/-- The non-finite test of the linear mode (`check_termination`, line 380):
`~isfinite(fn)`. -/
def badTestLin (w : LinWork) : Bool := ! w.fn.isFinite

/-- The termination check of the linear mode (`check_termination`,
lines 367-385): the convergence mask writes `_ECONVERGED` into `status`
first, then the non-finite mask writes `_EVALUEERR`; on an element where
both masks hold, the second write is the one that survives. -/
def checkTerminationLin (eps : FV) (w : LinWork) : LinWork :=
  let st := if convTestLin eps w then ECONVERGED else w.status
  let st := if badTestLin w then EVALUEERR else st
  { w with status := st }

/-- The per-element stop flag returned by the linear-mode termination check:
`stop` starts false and is set by both masks. -/
def stopLin (eps : FV) (w : LinWork) : Bool :=
  convTestLin eps w || badTestLin w

/-- Per-element state initialization of the linear mode
(`_continued_fraction`, lines 309-333): `fn = where(bn == 0, tiny, bn)`,
`Cnm1 = copy(fn)`, `Dnm1 = 0`, `CnDn = +inf`, status in progress, `nit = 0`,
`nfev = 1` (the coefficient pair was evaluated once, at term 0). -/
def initLin (tiny b0 : FV) : LinWork :=
  let fn := if b0.beq (FV.fin 0) then tiny else b0
  { fn := fn, Cnm1 := fn, Dnm1 := FV.fin 0, CnDn := FV.inf,
    status := EINPROGRESS, nit := 0, nfev := 1 }

/-- The convergence residual test of the log mode (`check_termination`,
lines 372-375, `log=True` branch): the residual is
`real(logaddexp(CnDn, pi*1j))` — the real part itself, not its absolute
value — and the element converges when it is strictly below `eps`.
`L` stands for the log-sum-of-exponentials primitive and `piC` for the
constant `pi*1j`. -/
def convTestLog (L : CV → CV → CV) (piC : CV) (eps : FV) (w : LogWork) : Bool :=
  ((L w.CnDn piC).re).blt eps

/-- The non-finite test of the log mode (`check_termination`, lines 380-381):
`~(isfinite(fn) | (fn == -inf))` — a log-domain `-inf` represents a linear
zero and is not an error. -/
def badTestLog (w : LogWork) : Bool :=
  ! (w.fn.isFinite || w.fn.beq CV.negInf)

/-- The termination check of the log mode (`check_termination`,
lines 367-385): same two mask writes as the linear mode, convergence first,
then non-finite. -/
def checkTerminationLog (L : CV → CV → CV) (piC : CV) (eps : FV)
    (w : LogWork) : LogWork :=
  let st := if convTestLog L piC eps w then ECONVERGED else w.status
  let st := if badTestLog w then EVALUEERR else st
  { w with status := st }

/-- The per-element stop flag of the log-mode termination check. -/
def stopLog (L : CV → CV → CV) (piC : CV) (eps : FV) (w : LogWork) : Bool :=
  convTestLog L piC eps w || badTestLog w

/-- Per-element state initialization of the log mode
(`_continued_fraction`, lines 323-333 with `log=True`): the domain zero is
`-inf`, the real scalar `tiny` broadcasts into the complex state, `Dnm1` is
filled with `-inf` and `CnDn` with `+inf`. -/
def initLog (tiny : FV) (b0 : CV) : LogWork :=
  let fn := if b0.beq CV.negInf then CV.ofReal tiny else b0
  { fn := fn, Cnm1 := fn, Dnm1 := CV.negInf, CnDn := CV.posInf,
    status := EINPROGRESS, nit := 0, nfev := 1 }

/-- One driver iteration for one linear-mode element, applied only while the
element is in progress (the driver compacts terminal elements away): the
Lentz update, the counter bumps (`nfev += 1` for the coefficient-pair
evaluation, `nit += 1`), then the termination check. -/
def stepLin (tiny eps an bn : FV) (w : LinWork) : LinWork :=
  if w.status = EINPROGRESS then
    checkTerminationLin eps
      { postFuncEvalLin tiny an bn w with nit := w.nit + 1, nfev := w.nfev + 1 }
  else w

/-- Modelled from the spec: the driver's final pass (section 4.5 of the spec;
the driver `_elementwise_iterative_method._loop` is not under the source
tree) — an element still in progress when the iteration cap is reached gets
the max-iterations status. -/
def finalizeLin (w : LinWork) : LinWork :=
  if w.status = EINPROGRESS then { w with status := ECONVERR } else w

/-- Modelled from the spec: the driver's iteration scheme (section 4.5) — `j`
remaining iterations, `n` the current term index (shared across the batch,
advanced by one before each coefficient evaluation). -/
def loopRun {σ : Type} (f : ℕ → σ → σ) : ℕ → ℕ → σ → σ
  | 0, _, w => w
  | j + 1, n, w => loopRun f j (n + 1) (f n w)

/-- One batch iteration of the linear mode: the coefficient pair for term `n`
is evaluated on the batch and each in-progress element takes one step. -/
def batchStep {α : Type} {k : ℕ} (A B : ℕ → (Fin k → α) → Fin k → FV)
    (xs : Fin k → α) (tiny eps : FV) (n : ℕ) (w : Fin k → LinWork) :
    Fin k → LinWork :=
  fun i => stepLin tiny eps (A n xs i) (B n xs i) (w i)

/-- Modelled from the spec: batch initialization followed by the driver's
termination check on the fresh state (the check that the `CnDn = +inf`
sentinel must not let converge).  The numeric values of the term-0 numerator
coefficients `A 0 xs` are discarded (the source uses them only for their
shape and dtype). -/
def batchInit {α : Type} {k : ℕ} (B : ℕ → (Fin k → α) → Fin k → FV)
    (xs : Fin k → α) (tiny eps : FV) : Fin k → LinWork :=
  fun i => checkTerminationLin eps (initLin tiny (B 0 xs i))

/-- Modelled from the spec: the batch state after `j` driver iterations (term
indices `1, 2, ..., j`). -/
def batchStateAt {α : Type} {k : ℕ} (A B : ℕ → (Fin k → α) → Fin k → FV)
    (xs : Fin k → α) (tiny eps : FV) (j : ℕ) : Fin k → LinWork :=
  loopRun (batchStep A B xs tiny eps) j 1 (batchInit B xs tiny eps)

/-- Modelled from the spec: one complete linear-mode evaluation call on a
batch of `k` elements — initialization, initial termination check, `maxiter`
driver iterations (terminal elements frozen), final status assignment. -/
def runBatch {α : Type} {k : ℕ} (A B : ℕ → (Fin k → α) → Fin k → FV)
    (xs : Fin k → α) (tiny eps : FV) (maxiter : ℕ) : Fin k → LinWork :=
  fun i => finalizeLin (batchStateAt A B xs tiny eps maxiter i)

/-- One complete linear-mode evaluation of a single problem instance with
elementwise coefficient functions `a`, `b` — the reference the batch run is
compared against. -/
def runOne {α : Type} (a b : ℕ → α → FV) (x : α) (tiny eps : FV)
    (maxiter : ℕ) : LinWork :=
  finalizeLin (loopRun (fun n w => stepLin tiny eps (a n x) (b n x) w)
    maxiter 1 (checkTerminationLin eps (initLin tiny (b 0 x))))

/-- Default resolution of the convergence threshold `eps`
(`_continued_fraction`, lines 316-317): absent, it becomes the machine
epsilon of the result dtype, or its natural logarithm in log mode.
`machEps` stands for `xp.finfo(dtype).eps` and `rlog` for `np.log`. -/
def resolveEps (log : Bool) (rlog : ℚ → ℚ) (machEps : ℚ) (eps : Option ℚ) : ℚ :=
  match eps with
  | some e => e
  | none => if ! log then machEps else rlog machEps

/-- Default resolution of the zero-avoidance floor `tiny`
(`_continued_fraction`, lines 320-321): absent, it becomes the square of the
machine epsilon of the result dtype, or twice its natural logarithm in log
mode. -/
def resolveTiny (log : Bool) (rlog : ℚ → ℚ) (machEps : ℚ) (tiny : Option ℚ) : ℚ :=
  match tiny with
  | some t => t
  | none => if ! log then machEps ^ 2 else 2 * rlog machEps

/-- Dynamic value a caller can pass for `eps` or `tiny`: a finite real scalar
(int or float), an infinity, a `nan`, a complex scalar, a non-numeric object
(string and the like), or an array-like of length `n` (non-scalar). -/
inductive TolVal where
  | rat : ℚ → TolVal
  | pinf : TolVal
  | ninf : TolVal
  | nan : TolVal
  | cplx : ℚ → ℚ → TolVal
  | nonnum : TolVal
  | arr : ℕ → TolVal
  deriving DecidableEq, Repr

/-- Whether the entry makes the dtype of `np.asarray([eps, tiny])`
non-numeric (object or string dtype). -/
def TolVal.isNonnum : TolVal → Bool
  | .nonnum => true
  | _ => false

/-- Whether the entry makes that dtype a complex floating dtype. -/
def TolVal.isCplx : TolVal → Bool
  | .cplx _ _ => true
  | _ => false

/-- Whether the entry is an array-like, making the shape of
`np.asarray([eps, tiny])` differ from `(2,)`. -/
def TolVal.isArr : TolVal → Bool
  | .arr _ => true
  | _ => false

/-- Elementwise `<= 0` as evaluated inside `np.any(tols <= 0)` when the
comparison ufunc is defined for the dtype.  On a string/object entry the real
ufunc raises `TypeError` instead of producing a value; the validator below
raises before this value is ever consulted there, so the `nonnum` branch is
dead code kept only to make the function total. -/
def TolVal.leZero : TolVal → Bool
  | .rat q => decide (q ≤ 0)
  | .ninf => true
  | _ => false

/-- Elementwise `np.isfinite` as evaluated inside
`np.all(np.isfinite(tols))` when the ufunc is defined for the dtype.  On a
string/object entry the real ufunc raises `TypeError`; as with `leZero`, the
validator raises before consulting the `nonnum` branch, which is kept only
to make the function total. -/
def TolVal.finiteB : TolVal → Bool
  | .pinf => false
  | .ninf => false
  | .nan => false
  | _ => true

/-- The entry of `tols = np.asarray([...])`: an absent tolerance is replaced
by the placeholder `1` (`_continued_fraction_iv`, lines 37-38). -/
def tolEntry (v : Option TolVal) : TolVal := v.getD (TolVal.rat 1)

/-- Dynamic value a caller can pass for `log`: a genuine Python bool, or any
other object together with its truthiness (the validation uses `not log`
before checking that `log` is a bool). -/
inductive LogVal where
  | pybool : Bool → LogVal
  | notBool : Bool → LogVal
  deriving DecidableEq, Repr

/-- Python truthiness of the `log` argument. -/
def LogVal.truthy : LogVal → Bool
  | .pybool b => b
  | .notBool t => t

/-- Whether the `log` argument fails `isinstance(log, bool)`. -/
def LogVal.isNotBool : LogVal → Bool
  | .pybool _ => false
  | .notBool _ => true

/-- The `args` argument of the public entry point: either an iterable of
argument arrays or a single non-iterable object. -/
inductive PyArgs (α : Type) where
  | iter : List α → PyArgs α
  | scalar : α → PyArgs α
  deriving DecidableEq, Repr

/-- The tuple-wrapping of `_continued_fraction_iv`, lines 27-28:
`if not np.iterable(args): args = (args,)`. -/
def wrapArgs {α : Type} : PyArgs α → List α
  | .iter l => l
  | .scalar x => [x]

/-- The kinds of exception the validation can raise: the `ValueError`s the
source raises itself (lines 25, 45, 49, 52 — plus the one `int(nan)` raises),
the `TypeError` a NumPy ufunc raises on a string/object dtype, and the
`OverflowError` `int(...)` raises on an infinite float. -/
inductive PyErr where
  | valueError : String → PyErr
  | typeError : PyErr
  | overflowError : PyErr
  deriving DecidableEq, Repr

/-- Whether an exception is a `ValueError`. -/
def PyErr.isValueError : PyErr → Bool
  | .valueError _ => true
  | _ => false

/-- The configuration received by `_continued_fraction_iv`: whether `a` and
`b` are callable, the `args` argument, the two optional tolerance entries,
the numeric iteration cap (an extended float, so an infinite or `nan` cap is
representable), and the `log` flag. -/
structure RawConfig (α : Type) where
  aCallable : Bool
  bCallable : Bool
  args : PyArgs α
  eps : Option TolVal
  tiny : Option TolVal
  maxiter : FV
  logArg : LogVal
  deriving DecidableEq, Repr

/-- What `_continued_fraction_iv` hands back on success: the (possibly
wrapped) `args` and the unchanged `eps`, `tiny`, `maxiter`, `log`. -/
structure IVResult (α : Type) where
  args : List α
  eps : Option TolVal
  tiny : Option TolVal
  maxiter : FV
  logArg : LogVal
  deriving DecidableEq, Repr

/-- The joint tolerance analysis of `_continued_fraction_iv`, lines 34-44:
`tols = np.asarray([eps if eps is not None else 1, tiny if tiny is not None
else 1])`, then `not_real` (non-numeric or complex dtype), `not_positive`
(`np.any(tols <= 0)`, skipped when `log` is truthy — note the source consults
the truthiness of `log` here, before `log` itself is validated),
`not_finite` (`not np.all(np.isfinite(tols))`) and `not_scalar`
(`tols.shape != (2,)`); the check fails when any of the four holds.  This is
the value of lines 39-44 on the configurations where the ufuncs of lines 41
and 42 do not raise, that is, where neither entry is a string/object; the
validator below raises `TypeError` on the others before reaching line 44. -/
def tolsCheckFails (epsv tinyv : Option TolVal) (logTruthy : Bool) : Bool :=
  let t1 := tolEntry epsv
  let t2 := tolEntry tinyv
  let notReal := t1.isNonnum || t2.isNonnum || t1.isCplx || t2.isCplx
  let notPositive := if logTruthy then false else (t1.leZero || t2.leZero)
  let notFinite := ! (t1.finiteB && t2.finiteB)
  let notScalar := t1.isArr || t2.isArr
  notReal || notPositive || notFinite || notScalar

/-- The exception `int(maxiter)` and the subsequent round-trip/sign check of
lines 47-49 produce, if any: `int(...)` raises `OverflowError` on an
infinite float and `ValueError` on `nan`; on a finite value the truncation
round-trip `maxiter != maxiter_int` (a rational equals its Python `int(...)`
truncation exactly when its denominator is `1`) and the sign check decide
the `ValueError` of line 49. -/
def maxiterCheck : FV → Option PyErr
  | FV.inf => some PyErr.overflowError
  | FV.ninf => some PyErr.overflowError
  | FV.nan => some (PyErr.valueError "cannot convert float NaN to integer")
  | FV.fin q =>
      if q.den ≠ 1 ∨ q < 0 then
        some (PyErr.valueError "maxiter must be a non-negative integer.")
      else none

/-- Input validation, mirroring `_continued_fraction_iv` (lines 21-54) with
its actual exception behavior: the callable check (`ValueError`, line 25);
`args` wrapping (lines 27-28); then the tolerance analysis — on a
string/object `eps` or `tiny` the array `tols` has a non-numeric dtype, so
the elementwise comparison of line 41 (reached when `log` is falsy) or the
`np.isfinite` of line 42 (reached when `log` is truthy) raises `TypeError`
before the `ValueError` of line 45 can be reached; otherwise the four tests
of lines 39-44 decide the `ValueError` of line 45.  Next `int(maxiter)`
(line 47): `OverflowError` on an infinite cap, `ValueError` on a `nan` cap
(both raised by `int` itself), otherwise the truncation round-trip and sign
check of line 48 (a rational equals its Python `int(...)` truncation exactly
when its denominator is `1`).  Finally the `isinstance(log, bool)` check
(`ValueError`, line 52). -/
def continuedFractionIV {α : Type} (cfg : RawConfig α) :
    Except PyErr (IVResult α) :=
  if ! (cfg.aCallable && cfg.bCallable) then
    Except.error (PyErr.valueError "a and b must be callable.")
  else
    let args := wrapArgs cfg.args
    let t1 := tolEntry cfg.eps
    let t2 := tolEntry cfg.tiny
    if ! cfg.logArg.truthy && (t1.isNonnum || t2.isNonnum) then
      Except.error PyErr.typeError
    else if t1.isNonnum || t2.isNonnum then
      Except.error PyErr.typeError
    else if tolsCheckFails cfg.eps cfg.tiny cfg.logArg.truthy then
      Except.error
        (PyErr.valueError "eps and tiny must be finite, positive, real scalars.")
    else
      match maxiterCheck cfg.maxiter with
      | some e => Except.error e
      | none =>
          match cfg.logArg with
          | .notBool _ => Except.error (PyErr.valueError "log must be boolean.")
          | .pybool b =>
              Except.ok { args := args, eps := cfg.eps, tiny := cfg.tiny,
                          maxiter := cfg.maxiter, logArg := .pybool b }

/-- Malformedness of one tolerance entry, as the claim lists it: non-real
(including complex), non-finite, non-scalar, or non-positive — the
positivity requirement applying only in linear mode. -/
def tolBad (t : TolVal) (logTruthy : Bool) : Bool :=
  match t with
  | .rat q => ! logTruthy && decide (q ≤ 0)
  | .pinf => true
  | .ninf => true
  | .nan => true
  | .cplx _ _ => true
  | .nonnum => true
  | .arr _ => true

/-- Malformedness of an optional tolerance entry (absent entries are fine). -/
def tolBadOpt (v : Option TolVal) (logTruthy : Bool) : Bool :=
  match v with
  | none => false
  | some t => tolBad t logTruthy

/-- Malformedness of the iteration cap, as the claim lists it: not equal to
an integer (which covers the infinities and `nan`) or negative. -/
def maxiterBad : FV → Bool
  | .fin q => decide (q.den ≠ 1) || decide (q < 0)
  | _ => true

/-- Malformedness of a configuration, spelled the way the claim lists the
conditions: `a` or `b` not callable; `eps` or `tiny` malformed; `maxiter`
not equal to an integer or negative; `log` not a boolean. -/
def malformedB {α : Type} (cfg : RawConfig α) : Bool :=
  ! cfg.aCallable || ! cfg.bCallable ||
  tolBadOpt cfg.eps cfg.logArg.truthy || tolBadOpt cfg.tiny cfg.logArg.truthy ||
  maxiterBad cfg.maxiter || cfg.logArg.isNotBool

/-! ## Helper lemmas -/

/-- Peeling the last iteration off the driver loop. -/
theorem loopRun_succ_end {σ : Type} (f : ℕ → σ → σ) (j n : ℕ) (w : σ) :
    loopRun f (j + 1) n w = f (n + j) (loopRun f j n w) := by
  induction j generalizing n w with
  | zero => rfl
  | succ j ih =>
      have h1 : loopRun f (j + 1 + 1) n w = loopRun f (j + 1) (n + 1) (f n w) := rfl
      have h2 : loopRun f (j + 1) n w = loopRun f j (n + 1) (f n w) := rfl
      rw [h1, ih, h2]
      congr 1
      omega

/-- The driver loop commutes with a projection that commutes with each
iteration (used to read one batch element off the vectorized loop). -/
theorem loopRun_proj {σ τ : Type} (F : ℕ → σ → σ) (f : ℕ → τ → τ) (p : σ → τ)
    (hp : ∀ n w, p (F n w) = f n (p w)) :
    ∀ (j n : ℕ) (w : σ), p (loopRun F j n w) = loopRun f j n (p w) := by
  intro j
  induction j with
  | zero => intro n w; rfl
  | succ j ih =>
      intro n w
      show p (loopRun F j (n + 1) (F n w)) = loopRun f j (n + 1) (f n (p w))
      rw [ih, hp]

/-- The driver loop only consults the iteration function at term indices at or
beyond its starting index. -/
theorem loopRun_congr {σ : Type} (f g : ℕ → σ → σ) :
    ∀ (j n : ℕ) (w : σ), (∀ m, n ≤ m → f m = g m) →
      loopRun f j n w = loopRun g j n w := by
  intro j
  induction j with
  | zero => intro n w _; rfl
  | succ j ih =>
      intro n w h
      show loopRun f j (n + 1) (f n w) = loopRun g j (n + 1) (g n w)
      rw [h n (Nat.le_refl n)]
      exact ih (n + 1) (g n w) (fun m hm => h m (by omega))

/-- One driver iteration either freezes a terminal element or advances both
counters by one. -/
theorem stepLin_counters (tiny eps an bn : FV) (w : LinWork) :
    ((stepLin tiny eps an bn w).nit = w.nit ∧
     (stepLin tiny eps an bn w).nfev = w.nfev) ∨
    ((stepLin tiny eps an bn w).nit = w.nit + 1 ∧
     (stepLin tiny eps an bn w).nfev = w.nfev + 1) := by
  by_cases h : w.status = EINPROGRESS
  · right
    simp [stepLin, h, checkTerminationLin, postFuncEvalLin]
  · left
    simp [stepLin, h]

/-- Unfolding one driver iteration at the end of the batch run. -/
theorem batchStateAt_succ {α : Type} {k : ℕ}
    (A B : ℕ → (Fin k → α) → Fin k → FV) (xs : Fin k → α) (tiny eps : FV)
    (j : ℕ) :
    batchStateAt A B xs tiny eps (j + 1) =
      batchStep A B xs tiny eps (1 + j) (batchStateAt A B xs tiny eps j) := by
  unfold batchStateAt
  exact loopRun_succ_end _ j 1 _

/-- The `nfev = nit + 1` invariant holds at every batch state. -/
theorem batchStateAt_nfev {α : Type} {k : ℕ}
    (A B : ℕ → (Fin k → α) → Fin k → FV) (xs : Fin k → α) (tiny eps : FV) :
    ∀ (j : ℕ) (i : Fin k),
      (batchStateAt A B xs tiny eps j i).nfev =
        (batchStateAt A B xs tiny eps j i).nit + 1 := by
  intro j
  induction j with
  | zero => intro i; rfl
  | succ j ih =>
      intro i
      rw [batchStateAt_succ]
      have hstep := stepLin_counters tiny eps (A (1 + j) xs i) (B (1 + j) xs i)
        (batchStateAt A B xs tiny eps j i)
      rcases hstep with ⟨h1, h2⟩ | ⟨h1, h2⟩ <;>
        · show (stepLin _ _ _ _ _).nfev = (stepLin _ _ _ _ _).nit + 1
          rw [h1, h2, ih i]

/-- The final status pass does not touch the counters. -/
theorem finalizeLin_counters (w : LinWork) :
    (finalizeLin w).nit = w.nit ∧ (finalizeLin w).nfev = w.nfev := by
  by_cases h : w.status = EINPROGRESS <;> simp [finalizeLin, h]

/-- Reading one element off the vectorized linear-mode run: with
elementwise-consistent coefficient callables, the batch run at index `i` is
the single-instance run on that element's argument. -/
theorem runBatch_elementwise {α : Type} {k : ℕ}
    (A B : ℕ → (Fin k → α) → Fin k → FV) (a b : ℕ → α → FV)
    (hA : ∀ (n : ℕ) (xs : Fin k → α) (i : Fin k), A n xs i = a n (xs i))
    (hB : ∀ (n : ℕ) (xs : Fin k → α) (i : Fin k), B n xs i = b n (xs i))
    (xs : Fin k → α) (tiny eps : FV) (m : ℕ) (i : Fin k) :
    runBatch A B xs tiny eps m i = runOne a b (xs i) tiny eps m := by
  unfold runBatch runOne batchStateAt
  congr 1
  have hproj := loopRun_proj (batchStep A B xs tiny eps)
      (fun n u => stepLin tiny eps (a n (xs i)) (b n (xs i)) u)
      (fun w => w i)
      (by intro n w; simp [batchStep, hA, hB]) m 1 (batchInit B xs tiny eps)
  rw [hproj]
  have hinit : batchInit B xs tiny eps i =
      checkTerminationLin eps (initLin tiny (b 0 (xs i))) := by
    simp [batchInit, hB]
  rw [hinit]

/-- Status characterization of the linear-mode termination check. -/
theorem checkTerminationLin_status (eps : FV) (w : LinWork) :
    (checkTerminationLin eps w).status =
      if badTestLin w then EVALUEERR
      else if convTestLin eps w then ECONVERGED else w.status := rfl

/-- Status characterization of the log-mode termination check. -/
theorem checkTerminationLog_status (L : CV → CV → CV) (piC : CV) (eps : FV)
    (w : LogWork) :
    (checkTerminationLog L piC eps w).status =
      if badTestLog w then EVALUEERR
      else if convTestLog L piC eps w then ECONVERGED else w.status := rfl

/-! ## Claim theorems -/

/-- C1: in linear mode, one Lentz step on an active (in-progress) element
computes, in order: `denom = bn + an * Dnm1` with `denom` replaced by `tiny`
when it equals `0`; `Dn = 1/denom`; `Cn = bn + an/Cnm1` with `Cn` replaced by
`tiny` when it equals `0`; `CnDn = Cn * Dn`; `fn` is multiplied by `CnDn`;
and `Cnm1`, `Dnm1` are overwritten with `Cn`, `Dn` for the next iteration. -/
theorem claim1_lentz_step (tiny eps an bn : FV) (w : LinWork)
    (h : w.status = EINPROGRESS) :
    let denom0 := bn.add (an.mul w.Dnm1)
    let denom := if denom0.beq (FV.fin 0) then tiny else denom0
    let Dn := (FV.fin 1).div denom
    let Cn0 := bn.add (an.div w.Cnm1)
    let Cn := if Cn0.beq (FV.fin 0) then tiny else Cn0
    let CnDn := Cn.mul Dn
    (stepLin tiny eps an bn w).CnDn = CnDn ∧
    (stepLin tiny eps an bn w).fn = w.fn.mul CnDn ∧
    (stepLin tiny eps an bn w).Cnm1 = Cn ∧
    (stepLin tiny eps an bn w).Dnm1 = Dn := by
  simp [stepLin, h, checkTerminationLin, postFuncEvalLin]

/-- Witness for C1 at a concrete active element. -/
theorem claim1_lentz_step_witness :
    ({ fn := FV.fin 3, Cnm1 := FV.fin 3, Dnm1 := FV.fin 0, CnDn := FV.inf,
       status := EINPROGRESS, nit := 0, nfev := 1 } : LinWork).status =
      EINPROGRESS ∧
    (let denom0 := (FV.fin 7).add ((FV.fin 1).mul (FV.fin 0))
     let denom := if denom0.beq (FV.fin 0) then FV.fin (1 / 1000) else denom0
     let Dn := (FV.fin 1).div denom
     let Cn0 := (FV.fin 7).add ((FV.fin 1).div (FV.fin 3))
     let Cn := if Cn0.beq (FV.fin 0) then FV.fin (1 / 1000) else Cn0
     let CnDn := Cn.mul Dn
     (stepLin (FV.fin (1 / 1000)) (FV.fin (1 / 100)) (FV.fin 1) (FV.fin 7)
        { fn := FV.fin 3, Cnm1 := FV.fin 3, Dnm1 := FV.fin 0, CnDn := FV.inf,
          status := EINPROGRESS, nit := 0, nfev := 1 }).CnDn = CnDn ∧
     (stepLin (FV.fin (1 / 1000)) (FV.fin (1 / 100)) (FV.fin 1) (FV.fin 7)
        { fn := FV.fin 3, Cnm1 := FV.fin 3, Dnm1 := FV.fin 0, CnDn := FV.inf,
          status := EINPROGRESS, nit := 0, nfev := 1 }).fn =
        (FV.fin 3).mul CnDn ∧
     (stepLin (FV.fin (1 / 1000)) (FV.fin (1 / 100)) (FV.fin 1) (FV.fin 7)
        { fn := FV.fin 3, Cnm1 := FV.fin 3, Dnm1 := FV.fin 0, CnDn := FV.inf,
          status := EINPROGRESS, nit := 0, nfev := 1 }).Cnm1 = Cn ∧
     (stepLin (FV.fin (1 / 1000)) (FV.fin (1 / 100)) (FV.fin 1) (FV.fin 7)
        { fn := FV.fin 3, Cnm1 := FV.fin 3, Dnm1 := FV.fin 0, CnDn := FV.inf,
          status := EINPROGRESS, nit := 0, nfev := 1 }).Dnm1 = Dn) :=
  ⟨rfl, claim1_lentz_step (FV.fin (1 / 1000)) (FV.fin (1 / 100)) (FV.fin 1)
    (FV.fin 7) _ rfl⟩

/-- C2 (amended): the termination check marks an active element converged
exactly when the coded residual is strictly below `eps` and the element is
not simultaneously flagged non-finite; the coded residual is `|CnDn - 1|` in
linear mode but, in log mode, the signed real part
`Re(logaddexp(CnDn, i*pi))` — not its absolute value (with the log-domain
`eps` itself the logarithm of a tolerance, hence typically negative, an
absolute value would make convergence unreachable). -/
theorem claim2_convergence_residual (eps : FV) (w : LinWork)
    (L : CV → CV → CV) (piC : CV) (epsL : FV) (v : LogWork)
    (hw : w.status = EINPROGRESS) (hv : v.status = EINPROGRESS) :
    ((checkTerminationLin eps w).status = ECONVERGED ↔
      (convTestLin eps w = true ∧ badTestLin w = false)) ∧
    convTestLin eps w = (FV.abs (w.CnDn.sub (FV.fin 1))).blt eps ∧
    ((checkTerminationLog L piC epsL v).status = ECONVERGED ↔
      (convTestLog L piC epsL v = true ∧ badTestLog v = false)) ∧
    convTestLog L piC epsL v = ((L v.CnDn piC).re).blt epsL := by
  refine ⟨?_, rfl, ?_, rfl⟩
  · cases hc : convTestLin eps w <;> cases hb : badTestLin w <;>
      simp [checkTerminationLin, hc, hb, hw, ECONVERGED, EVALUEERR, EINPROGRESS]
  · cases hc : convTestLog L piC epsL v <;> cases hb : badTestLog v <;>
      simp [checkTerminationLog, hc, hb, hv, ECONVERGED, EVALUEERR, EINPROGRESS]

/-- Witness for C2's amended statement at concrete active elements. -/
theorem claim2_convergence_residual_witness :
    ({ fn := FV.fin 3, Cnm1 := FV.fin 3, Dnm1 := FV.fin 0, CnDn := FV.fin 1,
       status := EINPROGRESS, nit := 1, nfev := 2 } : LinWork).status =
      EINPROGRESS ∧
    ({ fn := CV.ofReal (FV.fin 2), Cnm1 := CV.ofReal (FV.fin 2),
       Dnm1 := CV.negInf, CnDn := CV.posInf,
       status := EINPROGRESS, nit := 0, nfev := 1 } : LogWork).status =
      EINPROGRESS ∧
    (((checkTerminationLin (FV.fin (1 / 2))
        { fn := FV.fin 3, Cnm1 := FV.fin 3, Dnm1 := FV.fin 0, CnDn := FV.fin 1,
          status := EINPROGRESS, nit := 1, nfev := 2 }).status = ECONVERGED ↔
      (convTestLin (FV.fin (1 / 2))
          { fn := FV.fin 3, Cnm1 := FV.fin 3, Dnm1 := FV.fin 0,
            CnDn := FV.fin 1, status := EINPROGRESS, nit := 1, nfev := 2 } =
        true ∧
       badTestLin
          { fn := FV.fin 3, Cnm1 := FV.fin 3, Dnm1 := FV.fin 0,
            CnDn := FV.fin 1, status := EINPROGRESS, nit := 1, nfev := 2 } =
        false)) ∧
     convTestLin (FV.fin (1 / 2))
        { fn := FV.fin 3, Cnm1 := FV.fin 3, Dnm1 := FV.fin 0, CnDn := FV.fin 1,
          status := EINPROGRESS, nit := 1, nfev := 2 } =
      (FV.abs ((FV.fin 1).sub (FV.fin 1))).blt (FV.fin (1 / 2)) ∧
     ((checkTerminationLog (fun z _ => z) (CV.mk (FV.fin 0) (FV.fin 3))
        (FV.fin (-30))
        { fn := CV.ofReal (FV.fin 2), Cnm1 := CV.ofReal (FV.fin 2),
          Dnm1 := CV.negInf, CnDn := CV.posInf,
          status := EINPROGRESS, nit := 0, nfev := 1 }).status = ECONVERGED ↔
      (convTestLog (fun z _ => z) (CV.mk (FV.fin 0) (FV.fin 3))
          (FV.fin (-30))
          { fn := CV.ofReal (FV.fin 2), Cnm1 := CV.ofReal (FV.fin 2),
            Dnm1 := CV.negInf, CnDn := CV.posInf,
            status := EINPROGRESS, nit := 0, nfev := 1 } = true ∧
       badTestLog
          { fn := CV.ofReal (FV.fin 2), Cnm1 := CV.ofReal (FV.fin 2),
            Dnm1 := CV.negInf, CnDn := CV.posInf,
            status := EINPROGRESS, nit := 0, nfev := 1 } = false)) ∧
     convTestLog (fun z _ => z) (CV.mk (FV.fin 0) (FV.fin 3)) (FV.fin (-30))
        { fn := CV.ofReal (FV.fin 2), Cnm1 := CV.ofReal (FV.fin 2),
          Dnm1 := CV.negInf, CnDn := CV.posInf,
          status := EINPROGRESS, nit := 0, nfev := 1 } =
      (((fun (z : CV) (_ : CV) => z) CV.posInf
          (CV.mk (FV.fin 0) (FV.fin 3))).re).blt (FV.fin (-30))) :=
  ⟨rfl, rfl,
    claim2_convergence_residual (FV.fin (1 / 2)) _ (fun z _ => z)
      (CV.mk (FV.fin 0) (FV.fin 3)) (FV.fin (-30)) _ rfl rfl⟩

/-- C2, counterexample to the claim as stated: in log mode the code compares
the signed real part of `logaddexp(CnDn, i*pi)` against `eps`; with the
primitive returning real part `-100` and `eps = -40` (log tolerances are
negative), the code marks the element converged although the claimed
residual — the absolute value of that real part, `100` — is not below
`eps`. -/
theorem claim2_counterexample :
    (checkTerminationLog (fun _ _ => CV.mk (FV.fin (-100)) (FV.fin 0))
        (CV.mk (FV.fin 0) (FV.fin 3)) (FV.fin (-40))
        { fn := CV.ofReal (FV.fin 1), Cnm1 := CV.ofReal (FV.fin 1),
          Dnm1 := CV.ofReal (FV.fin 0), CnDn := CV.ofReal (FV.fin 0),
          status := EINPROGRESS, nit := 3, nfev := 4 }).status = ECONVERGED ∧
    (FV.abs ((CV.mk (FV.fin (-100)) (FV.fin 0)).re)).blt (FV.fin (-40)) =
      false := by
  decide

/-- C3 (amended): within one termination check on active elements, the
value-error mask is applied after the convergence mask and overwrites it on
overlap: an element is marked value-error exactly when its `fn` is
non-finite (linear mode) or non-finite and not `-inf` (log mode),
regardless of the convergence test; an element satisfying only the
convergence test is marked converged; the stop flag is the union of the two
conditions. -/
theorem claim3_valueerr_priority (eps : FV) (w : LinWork)
    (L : CV → CV → CV) (piC : CV) (epsL : FV) (v : LogWork)
    (hw : w.status = EINPROGRESS) (hv : v.status = EINPROGRESS) :
    ((checkTerminationLin eps w).status = EVALUEERR ↔ badTestLin w = true) ∧
    (convTestLin eps w = true → badTestLin w = false →
      (checkTerminationLin eps w).status = ECONVERGED) ∧
    stopLin eps w = (convTestLin eps w || badTestLin w) ∧
    ((checkTerminationLog L piC epsL v).status = EVALUEERR ↔
      badTestLog v = true) ∧
    (convTestLog L piC epsL v = true → badTestLog v = false →
      (checkTerminationLog L piC epsL v).status = ECONVERGED) ∧
    stopLog L piC epsL v = (convTestLog L piC epsL v || badTestLog v) := by
  refine ⟨?_, ?_, rfl, ?_, ?_, rfl⟩
  · cases hc : convTestLin eps w <;> cases hb : badTestLin w <;>
      simp [checkTerminationLin, hc, hb, hw, ECONVERGED, EVALUEERR, EINPROGRESS]
  · intro hc hb
    simp [checkTerminationLin, hc, hb]
  · cases hc : convTestLog L piC epsL v <;> cases hb : badTestLog v <;>
      simp [checkTerminationLog, hc, hb, hv, ECONVERGED, EVALUEERR, EINPROGRESS]
  · intro hc hb
    simp [checkTerminationLog, hc, hb]

/-- Witness for C3's amended statement at concrete active elements. -/
theorem claim3_valueerr_priority_witness :
    ({ fn := FV.fin 3, Cnm1 := FV.fin 3, Dnm1 := FV.fin 0, CnDn := FV.fin 1,
       status := EINPROGRESS, nit := 1, nfev := 2 } : LinWork).status =
      EINPROGRESS ∧
    ({ fn := CV.ofReal FV.nan, Cnm1 := CV.ofReal (FV.fin 2),
       Dnm1 := CV.negInf, CnDn := CV.posInf,
       status := EINPROGRESS, nit := 0, nfev := 1 } : LogWork).status =
      EINPROGRESS ∧
    (checkTerminationLin (FV.fin (1 / 2))
        { fn := FV.fin 3, Cnm1 := FV.fin 3, Dnm1 := FV.fin 0, CnDn := FV.fin 1,
          status := EINPROGRESS, nit := 1, nfev := 2 }).status = ECONVERGED ∧
    (checkTerminationLog (fun z _ => z) (CV.mk (FV.fin 0) (FV.fin 3))
        (FV.fin (-30))
        { fn := CV.ofReal FV.nan, Cnm1 := CV.ofReal (FV.fin 2),
          Dnm1 := CV.negInf, CnDn := CV.posInf,
          status := EINPROGRESS, nit := 0, nfev := 1 }).status = EVALUEERR := by
  refine ⟨rfl, rfl, ?_, ?_⟩
  · exact (claim3_valueerr_priority (FV.fin (1 / 2)) _ (fun z _ => z)
      (CV.mk (FV.fin 0) (FV.fin 3)) (FV.fin (-30))
      { fn := CV.ofReal FV.nan, Cnm1 := CV.ofReal (FV.fin 2),
        Dnm1 := CV.negInf, CnDn := CV.posInf,
        status := EINPROGRESS, nit := 0, nfev := 1 }
      rfl rfl).2.1
      (by norm_num [convTestLin, FV.sub, FV.add, FV.neg, FV.abs, FV.blt])
      (by decide)
  · exact ((claim3_valueerr_priority (FV.fin (1 / 2))
      { fn := FV.fin 3, Cnm1 := FV.fin 3, Dnm1 := FV.fin 0, CnDn := FV.fin 1,
        status := EINPROGRESS, nit := 1, nfev := 2 } (fun z _ => z)
      (CV.mk (FV.fin 0) (FV.fin 3)) (FV.fin (-30)) _ rfl rfl).2.2.2.1).2
      (by decide)

/-- C3, counterexample to the claim as stated: at an active element whose
`fn` is already `+inf` while `CnDn = 1` (residual `0 < eps`), the
convergence test holds, yet the check leaves the element with the
value-error status: the value-error write comes second in the source and
overwrites the converged status, so convergence does not take priority and
the two conditions are not mutually exclusive. -/
theorem claim3_counterexample :
    convTestLin (FV.fin (1 / 2))
      { fn := FV.inf, Cnm1 := FV.fin 1, Dnm1 := FV.fin 1, CnDn := FV.fin 1,
        status := EINPROGRESS, nit := 2, nfev := 3 } = true ∧
    (checkTerminationLin (FV.fin (1 / 2))
        { fn := FV.inf, Cnm1 := FV.fin 1, Dnm1 := FV.fin 1, CnDn := FV.fin 1,
          status := EINPROGRESS, nit := 2, nfev := 3 }).status = EVALUEERR := by
  have hconv : convTestLin (FV.fin (1 / 2))
      { fn := FV.inf, Cnm1 := FV.fin 1, Dnm1 := FV.fin 1, CnDn := FV.fin 1,
        status := EINPROGRESS, nit := 2, nfev := 3 } = true := by
    norm_num [convTestLin, FV.sub, FV.add, FV.neg, FV.abs, FV.blt]
  refine ⟨hconv, ?_⟩
  simp [checkTerminationLin, hconv, badTestLin, FV.isFinite]

/-- C4: state initialization sets, per element, `fn = b(0, args)` with the
domain zero (`0` linear, `-inf` log) replaced by `tiny`; `Cnm1` equal to
`fn` (the source takes an independently owned copy; in this functional
model the copy is value equality); `Dnm1 = 0` (linear) or `-inf` (log); and
`CnDn = +inf`, a sentinel under which the first termination check can never
mark the element converged (in log mode this uses that the
log-sum-of-exponentials primitive maps a `+inf` first argument to a value
with real part `+inf`, the hypothesis `hL`). -/
theorem claim4_initialization (tiny eps b0 : FV) (tinyL epsL : FV) (b0L : CV)
    (L : CV → CV → CV) (piC : CV)
    (hL : (L CV.posInf piC).re = FV.inf) :
    (initLin tiny b0).fn = (if b0.beq (FV.fin 0) then tiny else b0) ∧
    (initLin tiny b0).Cnm1 = (initLin tiny b0).fn ∧
    (initLin tiny b0).Dnm1 = FV.fin 0 ∧
    (initLin tiny b0).CnDn = FV.inf ∧
    convTestLin eps (initLin tiny b0) = false ∧
    (checkTerminationLin eps (initLin tiny b0)).status ≠ ECONVERGED ∧
    (initLog tinyL b0L).fn =
      (if b0L.beq CV.negInf then CV.ofReal tinyL else b0L) ∧
    (initLog tinyL b0L).Cnm1 = (initLog tinyL b0L).fn ∧
    (initLog tinyL b0L).Dnm1 = CV.negInf ∧
    (initLog tinyL b0L).CnDn = CV.posInf ∧
    convTestLog L piC epsL (initLog tinyL b0L) = false ∧
    (checkTerminationLog L piC epsL (initLog tinyL b0L)).status ≠
      ECONVERGED := by
  have hlin : convTestLin eps (initLin tiny b0) = false := by
    have h1 : (initLin tiny b0).CnDn = FV.inf := rfl
    rw [convTestLin, h1]
    cases eps <;> rfl
  have hlog : convTestLog L piC epsL (initLog tinyL b0L) = false := by
    have h1 : (initLog tinyL b0L).CnDn = CV.posInf := rfl
    rw [convTestLog, h1, hL]
    cases epsL <;> rfl
  refine ⟨rfl, rfl, rfl, rfl, hlin, ?_, rfl, rfl, rfl, rfl, hlog, ?_⟩
  · rw [checkTerminationLin_status, hlin]
    cases hb : badTestLin (initLin tiny b0) <;>
      simp [ECONVERGED, EVALUEERR, EINPROGRESS, initLin]
  · rw [checkTerminationLog_status, hlog]
    cases hb : badTestLog (initLog tinyL b0L) <;>
      simp [ECONVERGED, EVALUEERR, EINPROGRESS, initLog]

/-- Witness for C4 at concrete inputs (the log-sum-of-exponentials hypothesis
is discharged by the first-projection realization). -/
theorem claim4_initialization_witness :
    ((fun (z : CV) (_ : CV) => z) CV.posInf
        (CV.mk (FV.fin 0) (FV.fin 3))).re = FV.inf ∧
    ((initLin (FV.fin (1 / 1000)) (FV.fin 0)).fn =
      (if (FV.fin 0).beq (FV.fin 0) then FV.fin (1 / 1000) else FV.fin 0) ∧
     (initLin (FV.fin (1 / 1000)) (FV.fin 0)).Cnm1 =
      (initLin (FV.fin (1 / 1000)) (FV.fin 0)).fn ∧
     (initLin (FV.fin (1 / 1000)) (FV.fin 0)).Dnm1 = FV.fin 0 ∧
     (initLin (FV.fin (1 / 1000)) (FV.fin 0)).CnDn = FV.inf ∧
     convTestLin (FV.fin (1 / 100)) (initLin (FV.fin (1 / 1000)) (FV.fin 0)) =
      false ∧
     (checkTerminationLin (FV.fin (1 / 100))
        (initLin (FV.fin (1 / 1000)) (FV.fin 0))).status ≠ ECONVERGED ∧
     (initLog (FV.fin (-60)) CV.negInf).fn =
      (if CV.negInf.beq CV.negInf then CV.ofReal (FV.fin (-60))
       else CV.negInf) ∧
     (initLog (FV.fin (-60)) CV.negInf).Cnm1 =
      (initLog (FV.fin (-60)) CV.negInf).fn ∧
     (initLog (FV.fin (-60)) CV.negInf).Dnm1 = CV.negInf ∧
     (initLog (FV.fin (-60)) CV.negInf).CnDn = CV.posInf ∧
     convTestLog (fun z _ => z) (CV.mk (FV.fin 0) (FV.fin 3)) (FV.fin (-30))
        (initLog (FV.fin (-60)) CV.negInf) = false ∧
     (checkTerminationLog (fun z _ => z) (CV.mk (FV.fin 0) (FV.fin 3))
        (FV.fin (-30)) (initLog (FV.fin (-60)) CV.negInf)).status ≠
      ECONVERGED) :=
  ⟨rfl, claim4_initialization (FV.fin (1 / 1000)) (FV.fin (1 / 100)) (FV.fin 0)
    (FV.fin (-60)) (FV.fin (-30)) CV.negInf (fun z _ => z)
    (CV.mk (FV.fin 0) (FV.fin 3)) rfl⟩

/-- C5: when not supplied by the caller, `eps` defaults to the machine
epsilon of the result dtype (its natural logarithm in log mode) and `tiny`
defaults to the square of that machine epsilon (twice its natural logarithm
in log mode); `machEps` stands for `xp.finfo(dtype).eps` and `rlog` for
`np.log`. -/
theorem claim5_tolerance_defaults (log : Bool) (rlog : ℚ → ℚ) (machEps : ℚ) :
    resolveEps log rlog machEps none =
      (if log then rlog machEps else machEps) ∧
    resolveTiny log rlog machEps none =
      (if log then 2 * rlog machEps else machEps ^ 2) := by
  cases log <;> exact ⟨rfl, rfl⟩

/-- C6: for every batch element and at every point after initialization
(after `j` driver iterations, for any `j`, and in the final result), the
evaluation counter equals the iteration counter plus one — `nfev = nit + 1`,
one coefficient-pair evaluation beyond term 0 — and `nit` never decreases
from one iteration to the next. -/
theorem claim6_counters {α : Type} {k : ℕ}
    (A B : ℕ → (Fin k → α) → Fin k → FV) (xs : Fin k → α) (tiny eps : FV)
    (j : ℕ) (i : Fin k) :
    (batchStateAt A B xs tiny eps j i).nfev =
      (batchStateAt A B xs tiny eps j i).nit + 1 ∧
    (batchStateAt A B xs tiny eps j i).nit ≤
      (batchStateAt A B xs tiny eps (j + 1) i).nit ∧
    (runBatch A B xs tiny eps j i).nfev =
      (runBatch A B xs tiny eps j i).nit + 1 := by
  refine ⟨batchStateAt_nfev A B xs tiny eps j i, ?_, ?_⟩
  · rw [batchStateAt_succ]
    have hstep := stepLin_counters tiny eps (A (1 + j) xs i) (B (1 + j) xs i)
      (batchStateAt A B xs tiny eps j i)
    rcases hstep with ⟨h1, _⟩ | ⟨h1, _⟩ <;>
      · show (batchStateAt A B xs tiny eps j i).nit ≤ (stepLin _ _ _ _ _).nit
        omega
  · have hfin := finalizeLin_counters (batchStateAt A B xs tiny eps j i)
    show (finalizeLin _).nfev = (finalizeLin _).nit + 1
    rw [hfin.1, hfin.2]
    exact batchStateAt_nfev A B xs tiny eps j i

/-- C7: for elementwise-consistent coefficient callables (batch evaluation
agrees pointwise with a scalar coefficient function on each element),
evaluating a batch of instances in one call yields, for each element, the
same `f`, `nit` and `status` as evaluating that instance alone in its own
(size-one) call: batching leaks no state between elements. -/
theorem claim7_batch_independence {α : Type} (k : ℕ)
    (A B : (j : ℕ) → ℕ → (Fin j → α) → Fin j → FV) (a b : ℕ → α → FV)
    (hA : ∀ (j n : ℕ) (xs : Fin j → α) (i : Fin j), A j n xs i = a n (xs i))
    (hB : ∀ (j n : ℕ) (xs : Fin j → α) (i : Fin j), B j n xs i = b n (xs i))
    (xs : Fin k → α) (tiny eps : FV) (m : ℕ) (i : Fin k) :
    (runBatch (A k) (B k) xs tiny eps m i).fn =
      (runBatch (A 1) (B 1) (fun _ => xs i) tiny eps m 0).fn ∧
    (runBatch (A k) (B k) xs tiny eps m i).nit =
      (runBatch (A 1) (B 1) (fun _ => xs i) tiny eps m 0).nit ∧
    (runBatch (A k) (B k) xs tiny eps m i).status =
      (runBatch (A 1) (B 1) (fun _ => xs i) tiny eps m 0).status := by
  have h1 := runBatch_elementwise (A k) (B k) a b (hA k) (hB k) xs tiny eps m i
  have h2 := runBatch_elementwise (A 1) (B 1) a b (hA 1) (hB 1)
    (fun _ => xs i) tiny eps m 0
  rw [h1, h2]
  exact ⟨rfl, rfl, rfl⟩

/-- Witness for C7: a concrete elementwise pair of coefficient callables on a
batch of two elements. -/
theorem claim7_batch_independence_witness :
    (runBatch ((fun _ _ _ _ => FV.fin 1 : (j : ℕ) → ℕ → (Fin j → ℚ) →
          Fin j → FV) 2)
        ((fun _ _ xs i => FV.fin (xs i) : (j : ℕ) → ℕ → (Fin j → ℚ) →
          Fin j → FV) 2)
        (fun i => if i = 0 then 2 else 3) (FV.fin (1 / 1000))
        (FV.fin (1 / 100)) 3 1).fn =
      (runBatch ((fun _ _ _ _ => FV.fin 1 : (j : ℕ) → ℕ → (Fin j → ℚ) →
          Fin j → FV) 1)
        ((fun _ _ xs i => FV.fin (xs i) : (j : ℕ) → ℕ → (Fin j → ℚ) →
          Fin j → FV) 1)
        (fun _ => (fun i : Fin 2 => if i = 0 then (2 : ℚ) else 3) 1)
        (FV.fin (1 / 1000)) (FV.fin (1 / 100)) 3 0).fn ∧
    (runBatch ((fun _ _ _ _ => FV.fin 1 : (j : ℕ) → ℕ → (Fin j → ℚ) →
          Fin j → FV) 2)
        ((fun _ _ xs i => FV.fin (xs i) : (j : ℕ) → ℕ → (Fin j → ℚ) →
          Fin j → FV) 2)
        (fun i => if i = 0 then 2 else 3) (FV.fin (1 / 1000))
        (FV.fin (1 / 100)) 3 1).nit =
      (runBatch ((fun _ _ _ _ => FV.fin 1 : (j : ℕ) → ℕ → (Fin j → ℚ) →
          Fin j → FV) 1)
        ((fun _ _ xs i => FV.fin (xs i) : (j : ℕ) → ℕ → (Fin j → ℚ) →
          Fin j → FV) 1)
        (fun _ => (fun i : Fin 2 => if i = 0 then (2 : ℚ) else 3) 1)
        (FV.fin (1 / 1000)) (FV.fin (1 / 100)) 3 0).nit ∧
    (runBatch ((fun _ _ _ _ => FV.fin 1 : (j : ℕ) → ℕ → (Fin j → ℚ) →
          Fin j → FV) 2)
        ((fun _ _ xs i => FV.fin (xs i) : (j : ℕ) → ℕ → (Fin j → ℚ) →
          Fin j → FV) 2)
        (fun i => if i = 0 then 2 else 3) (FV.fin (1 / 1000))
        (FV.fin (1 / 100)) 3 1).status =
      (runBatch ((fun _ _ _ _ => FV.fin 1 : (j : ℕ) → ℕ → (Fin j → ℚ) →
          Fin j → FV) 1)
        ((fun _ _ xs i => FV.fin (xs i) : (j : ℕ) → ℕ → (Fin j → ℚ) →
          Fin j → FV) 1)
        (fun _ => (fun i : Fin 2 => if i = 0 then (2 : ℚ) else 3) 1)
        (FV.fin (1 / 1000)) (FV.fin (1 / 100)) 3 0).status :=
  claim7_batch_independence 2
    (fun _ _ _ _ => FV.fin 1) (fun _ _ xs i => FV.fin (xs i))
    (fun _ _ => FV.fin 1) (fun _ x => FV.fin x)
    (fun _ _ _ _ => rfl) (fun _ _ _ _ => rfl)
    (fun i => if i = 0 then 2 else 3) (FV.fin (1 / 1000)) (FV.fin (1 / 100))
    3 1

/-- C9: the result is independent of the numeric values of the term-0
numerator coefficients: two numerator callables agreeing at every term index
`n >= 1` (their term-0 outputs necessarily share the batch shape and the
embedding's value type) produce identical `f`, `status`, `nit` and `nfev`
for every element. -/
theorem claim9_a0_value_ignored {α : Type} {k : ℕ}
    (A1 A2 B : ℕ → (Fin k → α) → Fin k → FV)
    (h : ∀ n, 1 ≤ n → A1 n = A2 n)
    (xs : Fin k → α) (tiny eps : FV) (m : ℕ) (i : Fin k) :
    (runBatch A1 B xs tiny eps m i).fn = (runBatch A2 B xs tiny eps m i).fn ∧
    (runBatch A1 B xs tiny eps m i).status =
      (runBatch A2 B xs tiny eps m i).status ∧
    (runBatch A1 B xs tiny eps m i).nit =
      (runBatch A2 B xs tiny eps m i).nit ∧
    (runBatch A1 B xs tiny eps m i).nfev =
      (runBatch A2 B xs tiny eps m i).nfev := by
  have hstate : batchStateAt A1 B xs tiny eps m =
      batchStateAt A2 B xs tiny eps m := by
    unfold batchStateAt
    refine loopRun_congr _ _ m 1 _ ?_
    intro p hp
    funext w i2
    show stepLin tiny eps (A1 p xs i2) (B p xs i2) (w i2) =
      stepLin tiny eps (A2 p xs i2) (B p xs i2) (w i2)
    rw [h p hp]
  unfold runBatch
  rw [hstate]
  exact ⟨rfl, rfl, rfl, rfl⟩

/-- Witness for C9: two numerator callables differing only at term 0. -/
theorem claim9_a0_value_ignored_witness :
    (runBatch (fun n _ (_ : Fin 1) => if n = 0 then FV.fin 5 else FV.fin 1)
        (fun _ _ _ => FV.fin 4) (fun _ => (0 : ℚ)) (FV.fin (1 / 1000))
        (FV.fin (1 / 100)) 3 0).fn =
      (runBatch (fun n _ (_ : Fin 1) => if n = 0 then FV.nan else FV.fin 1)
        (fun _ _ _ => FV.fin 4) (fun _ => (0 : ℚ)) (FV.fin (1 / 1000))
        (FV.fin (1 / 100)) 3 0).fn ∧
    (runBatch (fun n _ (_ : Fin 1) => if n = 0 then FV.fin 5 else FV.fin 1)
        (fun _ _ _ => FV.fin 4) (fun _ => (0 : ℚ)) (FV.fin (1 / 1000))
        (FV.fin (1 / 100)) 3 0).status =
      (runBatch (fun n _ (_ : Fin 1) => if n = 0 then FV.nan else FV.fin 1)
        (fun _ _ _ => FV.fin 4) (fun _ => (0 : ℚ)) (FV.fin (1 / 1000))
        (FV.fin (1 / 100)) 3 0).status ∧
    (runBatch (fun n _ (_ : Fin 1) => if n = 0 then FV.fin 5 else FV.fin 1)
        (fun _ _ _ => FV.fin 4) (fun _ => (0 : ℚ)) (FV.fin (1 / 1000))
        (FV.fin (1 / 100)) 3 0).nit =
      (runBatch (fun n _ (_ : Fin 1) => if n = 0 then FV.nan else FV.fin 1)
        (fun _ _ _ => FV.fin 4) (fun _ => (0 : ℚ)) (FV.fin (1 / 1000))
        (FV.fin (1 / 100)) 3 0).nit ∧
    (runBatch (fun n _ (_ : Fin 1) => if n = 0 then FV.fin 5 else FV.fin 1)
        (fun _ _ _ => FV.fin 4) (fun _ => (0 : ℚ)) (FV.fin (1 / 1000))
        (FV.fin (1 / 100)) 3 0).nfev =
      (runBatch (fun n _ (_ : Fin 1) => if n = 0 then FV.nan else FV.fin 1)
        (fun _ _ _ => FV.fin 4) (fun _ => (0 : ℚ)) (FV.fin (1 / 1000))
        (FV.fin (1 / 100)) 3 0).nfev := by
  refine claim9_a0_value_ignored _ _ _ ?_ _ _ _ 3 0
  intro n hn
  funext xs i
  match n, hn with
  | m + 1, _ => rfl

/-- Boolean reshuffle: the joint four-test analysis of the two tolerance
entries equals the disjunction of the two per-entry malformedness tests. -/
theorem tolOrShuffle (a1 a2 c1 c2 l1 l2 f1 f2 r1 r2 lt : Bool) :
    ((a1 || a2 || c1 || c2) || (if lt then false else (l1 || l2)) ||
      (! (f1 && f2)) || (r1 || r2)) =
    ((a1 || c1 || (! lt && l1) || ! f1 || r1) ||
      (a2 || c2 || (! lt && l2) || ! f2 || r2)) := by
  revert a1 a2 c1 c2 l1 l2 f1 f2 r1 r2 lt
  decide

/-- Per-entry reading of the four joint tests, at the entry actually stored
in `tols` (an absent tolerance contributes the placeholder `1`, which passes
every test). -/
theorem tolEntry_tests (v : Option TolVal) (lt : Bool) :
    ((tolEntry v).isNonnum || (tolEntry v).isCplx ||
      (! lt && (tolEntry v).leZero) || ! (tolEntry v).finiteB ||
      (tolEntry v).isArr) = tolBadOpt v lt := by
  rcases v with _ | t
  · cases lt <;> decide
  · cases t <;> cases lt <;>
      simp [tolEntry, tolBadOpt, tolBad, TolVal.isNonnum, TolVal.isCplx,
        TolVal.isArr, TolVal.leZero, TolVal.finiteB]

/-- The source's joint tolerance check fails exactly when one of the two
entries is malformed in the claim's sense. -/
theorem tolsCheckFails_eq (v1 v2 : Option TolVal) (lt : Bool) :
    tolsCheckFails v1 v2 lt = (tolBadOpt v1 lt || tolBadOpt v2 lt) := by
  rw [← tolEntry_tests v1 lt, ← tolEntry_tests v2 lt]
  exact tolOrShuffle (tolEntry v1).isNonnum (tolEntry v2).isNonnum
    (tolEntry v1).isCplx (tolEntry v2).isCplx
    (tolEntry v1).leZero (tolEntry v2).leZero
    (tolEntry v1).finiteB (tolEntry v2).finiteB
    (tolEntry v1).isArr (tolEntry v2).isArr lt

/-- The entry stored in `tols` is a string/object exactly when the caller
passed a non-numeric tolerance, and such an entry is malformed in the
claim's sense (non-real). -/
theorem isNonnum_tolBad (v : Option TolVal) (lt : Bool)
    (h : (tolEntry v).isNonnum = true) : tolBadOpt v lt = true := by
  rcases v with _ | t
  · exact absurd h (by decide)
  · cases t <;> simp_all [tolEntry, TolVal.isNonnum, tolBadOpt, tolBad]

/-- C8 (amended): an exception is raised before any iteration begins if and
only if the configuration is malformed — `a` or `b` not callable; `eps` or
`tiny` non-real (including complex), non-finite, non-scalar, or non-positive
(the positivity requirement applying only in linear mode); `maxiter` not
equal to an integer or negative; or `log` not a boolean — and a valid
configuration passes validation with `eps`, `tiny`, `maxiter` and `log`
unchanged (`args` tuple-wrapped as needed).  The exception is a `ValueError`
except in two cases: a string/object (non-numeric-dtype) `eps` or `tiny`
raises `TypeError` (from the elementwise comparison of line 41 in linear
mode, or from the `isfinite` of line 42 in log mode, before the `ValueError`
of line 45 is reached), and — when the tolerance analysis passes — an
infinite `maxiter` raises `OverflowError` from `int(maxiter)` at line 47
(a `nan` cap still raises `ValueError`, from `int` itself). -/
theorem claim8_validation {α : Type} (cfg : RawConfig α) :
    ((∃ e, continuedFractionIV cfg = Except.error e) ↔ malformedB cfg = true) ∧
    (malformedB cfg = false →
      continuedFractionIV cfg =
        Except.ok { args := wrapArgs cfg.args, eps := cfg.eps,
                    tiny := cfg.tiny, maxiter := cfg.maxiter,
                    logArg := cfg.logArg }) ∧
    (continuedFractionIV cfg = Except.error PyErr.typeError ↔
      (cfg.aCallable && cfg.bCallable &&
        ((tolEntry cfg.eps).isNonnum || (tolEntry cfg.tiny).isNonnum)) =
        true) ∧
    (continuedFractionIV cfg = Except.error PyErr.overflowError ↔
      ((cfg.aCallable && cfg.bCallable &&
          ! ((tolEntry cfg.eps).isNonnum || (tolEntry cfg.tiny).isNonnum) &&
          ! tolsCheckFails cfg.eps cfg.tiny cfg.logArg.truthy) = true ∧
        (cfg.maxiter = FV.inf ∨ cfg.maxiter = FV.ninf))) := by
  rcases cfg with ⟨aC, bC, args, epsv, tinyv, mi, lg⟩
  simp only [continuedFractionIV, malformedB, tolsCheckFails_eq]
  cases aC with
  | false => simp
  | true =>
    cases bC with
    | false => simp
    | true =>
      simp only [Bool.and_self, Bool.not_true, Bool.false_or, Bool.true_and,
        Bool.false_eq_true, if_false]
      cases hN : ((tolEntry epsv).isNonnum || (tolEntry tinyv).isNonnum) with
      | true =>
        have hN2 : (tolEntry epsv).isNonnum = true ∨
            (tolEntry tinyv).isNonnum = true := by
          simpa using hN
        have hb : tolBadOpt epsv lg.truthy = true ∨
            tolBadOpt tinyv lg.truthy = true := by
          rcases hN2 with h | h
          · exact Or.inl (isNonnum_tolBad epsv lg.truthy h)
          · exact Or.inr (isNonnum_tolBad tinyv lg.truthy h)
        cases htr : lg.truthy <;> rw [htr] at hb <;>
          rcases hb with hb | hb <;> simp [hb]
      | false =>
        rcases lg with b | t
        · simp only [LogVal.truthy, LogVal.isNotBool]
          cases hT : (tolBadOpt epsv b || tolBadOpt tinyv b) with
          | true => simp
          | false =>
            cases mi with
            | inf => simp [maxiterCheck, maxiterBad]
            | ninf => simp [maxiterCheck, maxiterBad]
            | nan => simp [maxiterCheck, maxiterBad]
            | fin q =>
              simp only [maxiterCheck]
              by_cases hmi : q.den ≠ 1 ∨ q < 0
              · rw [if_pos hmi]
                rcases hmi with h1 | h1 <;> simp [maxiterBad, h1]
              · rw [if_neg hmi]
                push_neg at hmi
                simp [maxiterBad, hmi.1, hmi.2]
        · simp only [LogVal.truthy, LogVal.isNotBool]
          cases hT : (tolBadOpt epsv t || tolBadOpt tinyv t) with
          | true => simp
          | false =>
            cases mi with
            | inf => simp [maxiterCheck, maxiterBad]
            | ninf => simp [maxiterCheck, maxiterBad]
            | nan => simp [maxiterCheck, maxiterBad]
            | fin q =>
              simp only [maxiterCheck]
              by_cases hmi : q.den ≠ 1 ∨ q < 0
              · rw [if_pos hmi]
                simp
              · rw [if_neg hmi]
                simp

/-- Witness for C8's amended statement: a well-formed configuration (both
callables, default tolerances, `maxiter = 100`, `log = False`) passes
validation unchanged. -/
theorem claim8_validation_witness :
    malformedB ({ aCallable := true, bCallable := true,
                  args := PyArgs.iter [()], eps := none, tiny := none,
                  maxiter := FV.fin 100,
                  logArg := LogVal.pybool false } : RawConfig Unit) = false ∧
    continuedFractionIV ({ aCallable := true, bCallable := true,
                           args := PyArgs.iter [()], eps := none,
                           tiny := none, maxiter := FV.fin 100,
                           logArg := LogVal.pybool false } : RawConfig Unit) =
      Except.ok { args := [()], eps := none, tiny := none,
                  maxiter := FV.fin 100, logArg := LogVal.pybool false } :=
  ⟨by decide,
   (claim8_validation { aCallable := true, bCallable := true,
                        args := PyArgs.iter [()], eps := none, tiny := none,
                        maxiter := FV.fin 100,
                        logArg := LogVal.pybool false }).2.1 (by decide)⟩

/-- C8, counterexample to the claim as stated: a string/object `eps` in
linear mode is squarely on the claim's malformedness list (non-real), but
the elementwise comparison of line 41 raises `TypeError` before the source
can reach its `ValueError` at line 45, so no `ValueError` is raised;
likewise an infinite `maxiter` (not equal to an integer) makes
`int(maxiter)` raise `OverflowError` at line 47.  In both cases an error is
raised before any iteration, but not the claimed `ValueError`. -/
theorem claim8_counterexample :
    continuedFractionIV ({ aCallable := true, bCallable := true,
                           args := PyArgs.iter [()],
                           eps := some TolVal.nonnum, tiny := none,
                           maxiter := FV.fin 100,
                           logArg := LogVal.pybool false } : RawConfig Unit) =
      Except.error PyErr.typeError ∧
    PyErr.isValueError PyErr.typeError = false ∧
    malformedB ({ aCallable := true, bCallable := true,
                  args := PyArgs.iter [()], eps := some TolVal.nonnum,
                  tiny := none, maxiter := FV.fin 100,
                  logArg := LogVal.pybool false } : RawConfig Unit) = true ∧
    continuedFractionIV ({ aCallable := true, bCallable := true,
                           args := PyArgs.iter [()], eps := none,
                           tiny := none, maxiter := FV.inf,
                           logArg := LogVal.pybool false } : RawConfig Unit) =
      Except.error PyErr.overflowError ∧
    PyErr.isValueError PyErr.overflowError = false ∧
    malformedB ({ aCallable := true, bCallable := true,
                  args := PyArgs.iter [()], eps := none, tiny := none,
                  maxiter := FV.inf,
                  logArg := LogVal.pybool false } : RawConfig Unit) = true :=
  ⟨rfl, rfl, by decide, rfl, rfl, by decide⟩

/-- C10: a non-iterable `args` argument is wrapped into a one-element tuple
by input validation, so the call behaves identically to passing the
one-element tuple; iterable `args` are passed through unchanged. -/
theorem claim10_args_wrapping {α : Type} (cfg : RawConfig α) (x : α)
    (l : List α) :
    continuedFractionIV { cfg with args := PyArgs.scalar x } =
      continuedFractionIV { cfg with args := PyArgs.iter [x] } ∧
    wrapArgs (PyArgs.scalar x) = [x] ∧
    wrapArgs (PyArgs.iter l) = l :=
  ⟨rfl, rfl, rfl⟩
